import Mathlib

/-!
Shallow embedding of the hybrid remote file-locking and synchronization
coordinator of this repository.

The remote Supabase tables are modelled as association lists; all remote
calls are modelled as pure state transformers over an explicit state.
Transport failures (thrown exceptions at an await point) and error-valued
results are modelled by explicit fault parameters: a fault value chooses
the point in the source function at which the corresponding remote call
throws (or returns an error result), and the embedding follows exactly the
catch and error-check structure of the source.
-/

namespace RemoteLocks

/-- Row of the file_locks table (src/supabase/migrations/..._create_file_locks.sql):
path is the key of the association list, the row stores the holder's
session id and an absolute expiry timestamp in milliseconds. -/
structure LockRecord where
  session_id : String
  expires_at : Nat
deriving Repr, DecidableEq

/-- The remote file_locks table, keyed by path. -/
abbrev LockTable := List (String × LockRecord)

/-- Point read by key (select ... eq path ... single). -/
def lookupLock (table : LockTable) (path : String) : Option LockRecord :=
  Option.map Prod.snd (table.find? (fun e => e.1 == path))

/-- cleanupExpiredLocks (remoteLocks.ts lines 176-193): delete all rows with
expires_at strictly before now; its own errors are caught and logged, so a
failed sweep (sweepFault) leaves the table unchanged and never propagates. -/
def cleanupExpiredLocks (sweepFault : Bool) (now : Nat) (table : LockTable) : LockTable :=
  if sweepFault then table
  else table.filter (fun e => !decide (e.2.expires_at < now))

/-- Insert of a fresh row (the insert succeeds only when no row with that
path exists; the caller checks that before using this). -/
def insertLock (table : LockTable) (path : String) (r : LockRecord) : LockTable :=
  table ++ [(path, r)]

/-- Conditional update: set expires_at where path and session_id both match.
A zero-row match is not an error, it simply changes nothing. -/
def updateLockExpiry (table : LockTable) (path sid : String) (newExpiry : Nat) : LockTable :=
  table.map (fun e =>
    if e.1 == path && e.2.session_id == sid then (e.1, { e.2 with expires_at := newExpiry })
    else e)

/-- Conditional delete: remove rows where path and session_id both match. -/
def deleteLockBy (table : LockTable) (path sid : String) : LockTable :=
  table.filter (fun e => !(e.1 == path && e.2.session_id == sid))

/-- Process-visible state: the remote table together with the process-local
heartbeat set (the activeLocks Set of remoteLocks.ts line 15). -/
structure LockState where
  store : LockTable
  activeLocks : List String
deriving Repr, DecidableEq

/-- Where, if anywhere, a transport exception is thrown during
acquireRemoteLock's try block: at the insert, at the follow-up select, or
at the own-lock refresh update. -/
inductive AcquireFault where
  | none
  | insertThrow
  | selectThrow
  | updateThrow
deriving Repr, DecidableEq

/-- Add a name to the heartbeat set (Set.add semantics). -/
def addActiveLock (l : List String) (name : String) : List String :=
  if name ∈ l then l else l ++ [name]

/-- acquireRemoteLock (remoteLocks.ts lines 46-104). configured models
whether the Supabase client and session id exist; when they do not, the
function returns true without touching any state. Otherwise: sweep expired
rows, try to insert a row expiring 30000 ms from now; if the insert is
rejected because the path exists, read the existing row, refresh and grant
when it is our own, deny otherwise; on a fresh successful insert add the
name to the heartbeat set; any thrown transport error is caught and the
function returns true (fail open). -/
def acquireRemoteLock (configured sweepFault : Bool) (fault : AcquireFault)
    (self : String) (now : Nat) (lockName : String) (st : LockState) :
    Bool × LockState :=
  if !configured then (true, st)
  else
    let cleaned := cleanupExpiredLocks sweepFault now st.store
    if fault = AcquireFault.insertThrow then (true, { st with store := cleaned })
    else
      match lookupLock cleaned lockName with
      | .some existingLock =>
          if fault = AcquireFault.selectThrow then (true, { st with store := cleaned })
          else if existingLock.session_id == self then
            if fault = AcquireFault.updateThrow then (true, { st with store := cleaned })
            else
              (true, { st with store := updateLockExpiry cleaned lockName self (now + 30000) })
          else (false, { st with store := cleaned })
      | .none =>
          (true,
            { store := insertLock cleaned lockName { session_id := self, expires_at := now + 30000 },
              activeLocks := addActiveLock st.activeLocks lockName })

/-- How the conditional delete inside releaseRemoteLock ends: normally, with
an error-valued result (checked by the source and only logged), or by
throwing (caught by the source's catch). -/
inductive ReleaseOutcome where
  | ok
  | errResult
  | thrown
deriving Repr, DecidableEq

/-- Remove a name from the heartbeat set (Set.delete semantics). -/
def removeActiveLock (l : List String) (name : String) : List String :=
  l.filter (fun n => !(n == name))

/-- releaseRemoteLock (remoteLocks.ts lines 109-133): conditional delete of
the row matching both the path and our own session id; only on a
non-erroring delete is the name removed from the heartbeat set; errors are
logged, never raised. -/
def releaseRemoteLock (configured : Bool) (outcome : ReleaseOutcome)
    (self lockName : String) (st : LockState) : LockState :=
  if !configured then st
  else
    match outcome with
    | .thrown => st
    | .errResult => st
    | .ok =>
        { store := deleteLockBy st.store lockName self,
          activeLocks := removeActiveLock st.activeLocks lockName }

/-- isFileLockedByOther (remoteLocks.ts lines 138-171): sweep, then point
read; absent row or our own row reports not locked; another holder's row
reports locked with that holder's id; a thrown error is caught and reports
not locked. -/
def isFileLockedByOther (configured sweepFault selectFault : Bool)
    (self : String) (now : Nat) (lockName : String) (st : LockState) :
    (Bool × Option String) × LockState :=
  if !configured then ((false, Option.none), st)
  else
    let cleaned := cleanupExpiredLocks sweepFault now st.store
    if selectFault then ((false, Option.none), { st with store := cleaned })
    else
      match lookupLock cleaned lockName with
      | .none => ((false, Option.none), { st with store := cleaned })
      | .some lock =>
          if lock.session_id == self then ((false, Option.none), { st with store := cleaned })
          else ((true, Option.some lock.session_id), { st with store := cleaned })

/-- refreshLockExpiration (remoteLocks.ts lines 198-214): conditional update
of expires_at gated on path and own session id; the result of the update is
not inspected (a zero-row match changes nothing and is not an error), and
every thrown error is caught inside this function, so the embedding is a
total state transformer that never fails. -/
def refreshLockExpiration (configured : Bool) (updateFault : Bool)
    (self : String) (now : Nat) (lockName : String) (st : LockState) : LockState :=
  if !configured then st
  else if updateFault then st
  else { st with store := updateLockExpiry st.store lockName self (now + 30000) }

/-- One firing of the heartbeat timer (remoteLocks.ts lines 225-270): when
the heartbeat set is non-empty, call refreshLockExpiration for each name in
it. The source wraps each call in try/catch with a re-acquire-and-drop
handler, but refreshLockExpiration catches all of its own errors and never
rejects, so that handler is unreachable and the tick is exactly this fold. -/
def heartbeatTick (configured : Bool) (updateFault : String → Bool)
    (self : String) (now : Nat) (st : LockState) : LockState :=
  if 0 < st.activeLocks.length then
    st.activeLocks.foldl
      (fun s lockName =>
        refreshLockExpiration configured (updateFault lockName) self now lockName s)
      st
  else st

/-- A transport exception is actually thrown during acquireRemoteLock's try
block exactly when the chosen fault point is reached: the insert always
runs; the select runs only when the insert was rejected (a row with that
path exists after the sweep); the refresh update runs only when the
existing row is our own. -/
def throwReached (fault : AcquireFault) (table : LockTable) (self lockName : String) : Prop :=
  fault = AcquireFault.insertThrow ∨
    (fault = AcquireFault.selectThrow ∧ (lookupLock table lockName).isSome = true) ∨
    (fault = AcquireFault.updateThrow ∧
      ∃ rec, lookupLock table lockName = Option.some rec ∧ rec.session_id = self)

end RemoteLocks

namespace EditingSessions

open RemoteLocks

/-- The process-wide activeSessions registry (editingSessions.ts line 12),
a map from file path to editing-session id. -/
abbrev Sessions := List (String × String)

/-- Lock name used for a file path (editingSessions.ts line 27). -/
def lockNameFor (filePath : String) : String := "file-editing:" ++ filePath

/-- Map.delete on the session registry. -/
def removeSession (sessions : Sessions) (filePath : String) : Sessions :=
  sessions.filter (fun e => !(e.1 == filePath))

/-- validateEditingSession (editingSessions.ts lines 142-166): check via
isFileLockedByOther whether the file's editing lock is held by another
session; if so, evict the path from the registry and report invalid;
otherwise report valid and leave the registry alone. importFault models a
throw inside the try block before the check completes (the dynamic import);
the catch reports invalid without touching the registry. -/
def validateEditingSession (importFault configured sweepFault selectFault : Bool)
    (self : String) (now : Nat) (filePath : String)
    (locks : LockState) (sessions : Sessions) : Bool × LockState × Sessions :=
  if importFault then (false, locks, sessions)
  else
    let lockResult :=
      isFileLockedByOther configured sweepFault selectFault self now (lockNameFor filePath) locks
    if lockResult.1.1 then (false, lockResult.2, removeSession sessions filePath)
    else (true, lockResult.2, sessions)

end EditingSessions

namespace SupabaseSync

/-- Local metadata record (Dexie metadata table): primary key uuid, indexed
by path, carrying the content digest and opaque view state. -/
structure FileMetadata where
  uuid : String
  path : String
  sha256 : String
  viewState : Option String
deriving Repr, DecidableEq

/-- Local contents record (Dexie _contents table), keyed by path. -/
structure FileContents where
  path : String
  contents : String
deriving Repr, DecidableEq

/-- Row of the remote synced_files table (supabaseSync SyncedFile
interface), with updated_at as a millisecond timestamp. -/
structure SyncedFile where
  path : String
  contents : String
  sha256 : String
  view_state : Option String
  updated_at : Nat
deriving Repr, DecidableEq

/-- The local Dexie database: a metadata table and a contents table. -/
structure LocalDb where
  metadata : List FileMetadata
  contents : List FileContents
deriving Repr, DecidableEq

/-- db.metadata.where path equals ... first. -/
def findMetadata (db : LocalDb) (path : String) : Option FileMetadata :=
  db.metadata.find? (fun m => m.path == path)

/-- Point lookup in the contents table. -/
def lookupContents (cs : List FileContents) (path : String) : Option String :=
  Option.map FileContents.contents (cs.find? (fun c => c.path == path))

/-- db._contents.put: replace the record with this path, or append one. -/
def putContents (cs : List FileContents) (path text : String) : List FileContents :=
  if cs.any (fun c => c.path == path) then
    cs.map (fun c => if c.path == path then { path := path, contents := text } else c)
  else cs ++ [{ path := path, contents := text }]

/-- db.metadata.update uuid: set sha256 and viewState on the record(s) with
this primary key. -/
def updateMetadataByUuid (ms : List FileMetadata) (uuid sha : String)
    (vs : Option String) : List FileMetadata :=
  ms.map (fun m => if m.uuid == uuid then { m with sha256 := sha, viewState := vs } else m)

/-- mergeFile (supabaseSync, editingSessions.ts concatenation lines 495-556):
inside one local transaction, look up local metadata by the remote row's
path; if absent, create metadata (with a fresh uuid) and contents from the
remote row; if present with a different sha256, overwrite metadata (by
uuid) and contents with the remote values; if the digests match, do
nothing. The remote row's updated_at is never consulted. A transaction
failure (txFault) rolls back and is caught and logged inside mergeFile, so
the function never rejects. -/
def mergeFile (txFault : Bool) (freshUuid : String) (remoteFile : SyncedFile)
    (db : LocalDb) : LocalDb :=
  if txFault then db
  else
    match findMetadata db remoteFile.path with
    | .none =>
        { metadata := db.metadata ++
            [{ uuid := freshUuid, path := remoteFile.path,
               sha256 := remoteFile.sha256, viewState := remoteFile.view_state }],
          contents := putContents db.contents remoteFile.path remoteFile.contents }
    | .some localMetadata =>
        if localMetadata.sha256 ≠ remoteFile.sha256 then
          { metadata := updateMetadataByUuid db.metadata localMetadata.uuid
              remoteFile.sha256 remoteFile.view_state,
            contents := putContents db.contents remoteFile.path remoteFile.contents }
        else db

/-- Sync engine state: the local database and the lastSyncTime watermark. -/
structure SyncState where
  db : LocalDb
  lastSyncTime : Nat
deriving Repr, DecidableEq

/-- Insert a row into a list kept ascending by updated_at. -/
def insertByUpdatedAt (row : SyncedFile) : List SyncedFile → List SyncedFile
  | [] => [row]
  | r :: rs =>
      if row.updated_at < r.updated_at then row :: r :: rs
      else r :: insertByUpdatedAt row rs

/-- Sort rows ascending by updated_at. -/
def sortByUpdatedAt (rows : List SyncedFile) : List SyncedFile :=
  rows.foldr insertByUpdatedAt []

/-- The remote query of downloadAndMergeFiles: rows with updated_at at or
after the watermark, ordered ascending by updated_at. -/
def queryRows (remote : List SyncedFile) (watermark : Nat) : List SyncedFile :=
  sortByUpdatedAt (remote.filter (fun r => decide (watermark ≤ r.updated_at)))

/-- downloadAndMergeFiles (supabaseSync, lines 457-490): if the query
returns an error, log and return without touching anything; if it returns
no rows, return; otherwise merge each row in order (each row's transaction
failure being swallowed inside mergeFile) and then set lastSyncTime to the
wall-clock completion time. -/
def downloadAndMergeFiles (queryFault : Bool) (txFault : SyncedFile → Bool)
    (freshUuid : SyncedFile → String) (remote : List SyncedFile)
    (completionTime : Nat) (st : SyncState) : SyncState :=
  if queryFault then st
  else
    let rows := queryRows remote st.lastSyncTime
    if rows.isEmpty then st
    else
      { db := rows.foldl (fun d r => mergeFile (txFault r) (freshUuid r) r d) st.db,
        lastSyncTime := completionTime }

end SupabaseSync

namespace RemoteLocks

/-- Concrete state for the lost-lock heartbeat scenario: the heartbeat set
still contains a name whose remote record is held (live) by another
session. -/
def lostLockState : LockState :=
  { store := [("file-editing:/a.py",
      { session_id := "session-other", expires_at := 1000000 })],
    activeLocks := ["file-editing:/a.py"] }

/-- Concrete state: holder A owns a live lock on resource L. -/
def heldByAState : LockState :=
  { store := [("L", { session_id := "A", expires_at := 40000 })],
    activeLocks := [] }

/-- Concrete empty state. -/
def emptyLockState : LockState := { store := [], activeLocks := [] }

/-- Concrete state: another session owns L while L sits in our heartbeat set. -/
def foreignHeldState : LockState :=
  { store := [("L", { session_id := "session-other", expires_at := 99 })],
    activeLocks := ["L"] }

/-- Concrete state: we own the record for L. -/
def selfHeldState : LockState :=
  { store := [("L", { session_id := "me", expires_at := 50000 })],
    activeLocks := [] }

/-- Concrete state with an unrelated name in the heartbeat set. -/
def idleHeartbeatState : LockState := { store := [], activeLocks := ["K"] }

end RemoteLocks

namespace EditingSessions

open RemoteLocks

/-- Concrete lock state: the editing lock for /w.py is held by another
session. -/
def foreignEditLockState : LockState :=
  { store := [("file-editing:/w.py",
      { session_id := "session-other", expires_at := 100000 })],
    activeLocks := [] }

end EditingSessions

namespace SupabaseSync

/-- Concrete remote row used in the watermark scenarios. -/
def rowX : SyncedFile :=
  { path := "x.py", contents := "print(1)", sha256 := "D1", view_state := Option.none,
    updated_at := 50 }

/-- Concrete initial sync state with the watermark at the epoch. -/
def epochSyncState : SyncState :=
  { db := { metadata := [], contents := [] }, lastSyncTime := 0 }

/-- Concrete local metadata whose digest differs from rowX. -/
def staleMeta : FileMetadata :=
  { uuid := "u0", path := "x.py", sha256 := "D0", viewState := Option.none }

/-- Concrete local database holding a stale copy of x.py. -/
def staleDb : LocalDb :=
  { metadata := [staleMeta], contents := [{ path := "x.py", contents := "old" }] }

/-- Concrete local metadata whose digest matches rowY. -/
def freshMeta : FileMetadata :=
  { uuid := "u2", path := "y.py", sha256 := "D1", viewState := Option.none }

/-- Concrete local database already holding rowY's content. -/
def freshDb : LocalDb :=
  { metadata := [freshMeta], contents := [{ path := "y.py", contents := "same" }] }

/-- Concrete remote row whose digest matches freshDb's copy. -/
def rowY : SyncedFile :=
  { path := "y.py", contents := "same", sha256 := "D1", view_state := Option.none,
    updated_at := 9 }

end SupabaseSync

namespace RemoteLocks

/-- A successful point read exhibits a member of the table. -/
theorem lookupLock_mem {t : LockTable} {name : String} {rec : LockRecord}
    (h : lookupLock t name = some rec) : (name, rec) ∈ t := by
  unfold lookupLock at h
  cases hf : t.find? (fun e => e.1 == name) with
  | none => rw [hf] at h; simp at h
  | some e =>
      rw [hf] at h
      have hp := List.find?_some hf
      have hm := List.mem_of_find?_eq_some hf
      obtain ⟨e1, e2⟩ := e
      simp only [Option.map_some'] at h
      have h1 : e1 = name := by simpa using hp
      have h2 : e2 = rec := by simpa using h
      rw [h1, h2] at hm
      exact hm

/-- A point read surviving a filter that keeps its entry is unchanged by
the filter. -/
theorem lookupLock_filter_keep {p : String × LockRecord → Bool} :
    ∀ {t : LockTable} {name : String} {rec : LockRecord},
      lookupLock t name = some rec → p (name, rec) = true →
      lookupLock (t.filter p) name = some rec := by
  intro t
  induction t with
  | nil => intro name rec h _; simp [lookupLock] at h
  | cons e rest ih =>
      intro name rec h hkeep
      unfold lookupLock at h ⊢
      by_cases hk : (e.1 == name) = true
      · rw [@List.find?_cons_of_pos _ (fun x : String × LockRecord => x.1 == name) e rest hk] at h
        have h2 : e.2 = rec := by simpa using h
        have h1 : e.1 = name := by simpa using hk
        have hep : e = (name, rec) := Prod.ext h1 h2
        rw [List.filter_cons, if_pos (hep ▸ hkeep),
          @List.find?_cons_of_pos _ (fun x : String × LockRecord => x.1 == name) e
            (List.filter p rest) hk]
        simpa using h2
      · rw [@List.find?_cons_of_neg _ (fun x : String × LockRecord => x.1 == name) e rest hk] at h
        have hrest := ih h hkeep
        unfold lookupLock at hrest
        rw [List.filter_cons]
        by_cases hpe : p e = true
        · rw [if_pos hpe,
            @List.find?_cons_of_neg _ (fun x : String × LockRecord => x.1 == name) e
              (List.filter p rest) hk]
          exact hrest
        · rw [if_neg hpe]
          exact hrest

/-- A point read that hits a record surviving the sweep still hits the same
record after the sweep. -/
theorem lookupLock_cleanup_of_lookup {t : LockTable} {name : String}
    {rec : LockRecord} {now : Nat}
    (h : lookupLock t name = some rec) (hlive : ¬ rec.expires_at < now) :
    lookupLock (cleanupExpiredLocks false now t) name = some rec :=
  lookupLock_filter_keep h (by simpa using hlive)

/-- Filtering preserves uniqueness of keys. -/
theorem nodupKeys_filter {t : LockTable} (p : String × LockRecord → Bool)
    (h : (t.map Prod.fst).Nodup) : ((t.filter p).map Prod.fst).Nodup :=
  List.Nodup.sublist (List.Sublist.map _ (List.filter_sublist _)) h

/-- With unique keys, two members sharing a key are the same entry. -/
theorem eq_of_mem_keyNodup {t : LockTable}
    (h : (t.map Prod.fst).Nodup) {e e' : String × LockRecord}
    (he : e ∈ t) (he' : e' ∈ t) (hk : e.1 = e'.1) : e = e' :=
  List.inj_on_of_nodup_map h he he' hk

end RemoteLocks

namespace RemoteLocks

/-- A point read after a conditional expiry update on our own matching
record returns the refreshed record. -/
theorem lookupLock_updateLockExpiry {t : LockTable} {name sid : String} {x : Nat}
    {rec : LockRecord}
    (h : lookupLock t name = some rec) (hs : rec.session_id = sid) :
    lookupLock (updateLockExpiry t name sid x) name
      = some { session_id := sid, expires_at := x } := by
  unfold lookupLock at h ⊢
  unfold updateLockExpiry
  rw [List.find?_map]
  have hcong : ((fun e : String × LockRecord => e.1 == name) ∘ fun e =>
      if e.1 == name && e.2.session_id == sid then (e.1, { e.2 with expires_at := x })
      else e) = fun e : String × LockRecord => e.1 == name := by
    funext e
    by_cases hc : (e.1 == name && e.2.session_id == sid) = true
    · simp [Function.comp, hc]
    · simp [Function.comp, hc]
  rw [hcong]
  cases hf : t.find? (fun e => e.1 == name) with
  | none => rw [hf] at h; simp at h
  | some e =>
      rw [hf] at h
      have hp' := List.find?_some hf
      have hp : (e.1 == name) = true := by simpa using hp'
      have h2 : e.2 = rec := by simpa using h
      have hc : (e.1 == name && e.2.session_id == sid) = true := by
        simp [hp, h2, hs]
      have hpn : e.1 = name := by simpa using hp
      simp [hc, h2, hs, hpn]

/-- C1: while the remote store holds a live lock record for a name owned by
a different holder, acquireRemoteLock returns not granted; after the owning
holder releases the name, a subsequent acquire of that name by the other
holder returns granted. -/
theorem acquire_denied_while_held_then_granted_after_release
    (a b name : String) (now₁ now₂ : Nat) (st : LockState) (rec : LockRecord)
    (hkeys : (st.store.map Prod.fst).Nodup)
    (hab : a ≠ b)
    (hlook : lookupLock st.store name = some rec)
    (hown : rec.session_id = a)
    (hlive : now₁ < rec.expires_at) :
    (acquireRemoteLock true false AcquireFault.none b now₁ name st).1 = false ∧
    (acquireRemoteLock true false AcquireFault.none b now₂ name
        (releaseRemoteLock true ReleaseOutcome.ok a name
          (acquireRemoteLock true false AcquireFault.none b now₁ name st).2)).1 = true := by
  have hlive' : ¬ rec.expires_at < now₁ := by omega
  have hlook₁ : lookupLock (cleanupExpiredLocks false now₁ st.store) name = some rec :=
    lookupLock_cleanup_of_lookup hlook hlive'
  have hne : (rec.session_id == b) = false := by
    rw [hown]
    exact beq_eq_false_iff_ne.mpr hab
  have hatt : acquireRemoteLock true false AcquireFault.none b now₁ name st
      = (false, { st with store := cleanupExpiredLocks false now₁ st.store }) := by
    simp [acquireRemoteLock, hlook₁, hne]
  have hkeys₁ : ((cleanupExpiredLocks false now₁ st.store).map Prod.fst).Nodup :=
    nodupKeys_filter _ hkeys
  have hmem : (name, rec) ∈ cleanupExpiredLocks false now₁ st.store := lookupLock_mem hlook₁
  have hnone : lookupLock (cleanupExpiredLocks false now₂
      (deleteLockBy (cleanupExpiredLocks false now₁ st.store) name a)) name = Option.none := by
    unfold lookupLock
    rw [Option.map_eq_none']
    rw [List.find?_eq_none]
    intro x hx hpx
    have hx1 : x ∈ deleteLockBy (cleanupExpiredLocks false now₁ st.store) name a := by
      unfold cleanupExpiredLocks at hx
      simp only [Bool.false_eq_true, if_false] at hx
      exact (List.mem_filter.mp hx).1
    have hprex := hx1
    unfold deleteLockBy at hprex
    have hx2 : x ∈ cleanupExpiredLocks false now₁ st.store := (List.mem_filter.mp hprex).1
    have hxpred := (List.mem_filter.mp hprex).2
    have hxn : x.1 = name := by simpa using hpx
    have hxe : x = (name, rec) := eq_of_mem_keyNodup hkeys₁ hx2 hmem (by simpa using hxn)
    rw [hxe] at hxpred
    simp [hown] at hxpred
  refine ⟨by rw [hatt], ?_⟩
  rw [hatt]
  simp [releaseRemoteLock, acquireRemoteLock, hnone]

/-- Witness for C1 at a concrete store: A holds L live at time 1000, B is
denied, A releases, B is granted at time 2000. -/
theorem acquire_denied_while_held_then_granted_after_release_witness :
    ((heldByAState.store.map Prod.fst).Nodup ∧ "A" ≠ "B" ∧
      lookupLock heldByAState.store "L"
        = some { session_id := "A", expires_at := 40000 } ∧
      (1000 : Nat) < 40000) ∧
    ((acquireRemoteLock true false AcquireFault.none "B" 1000 "L" heldByAState).1 = false ∧
      (acquireRemoteLock true false AcquireFault.none "B" 2000 "L"
        (releaseRemoteLock true ReleaseOutcome.ok "A" "L"
          (acquireRemoteLock true false AcquireFault.none "B" 1000 "L"
            heldByAState).2)).1 = true) :=
  ⟨⟨by decide, by decide, by decide, by decide⟩,
    acquire_denied_while_held_then_granted_after_release "A" "B" "L" 1000 2000
      heldByAState { session_id := "A", expires_at := 40000 }
      (by decide) (by decide) (by decide) (by decide) (by decide)⟩

/-- C2: whenever a transport error is actually thrown during
acquireRemoteLock's attempt, the catch makes the function report granted
(true) instead of raising or denying. -/
theorem acquire_fail_open_on_transport_error
    (sweepFault : Bool) (fault : AcquireFault) (self : String) (now : Nat)
    (lockName : String) (st : LockState)
    (h : throwReached fault (cleanupExpiredLocks sweepFault now st.store) self lockName) :
    (acquireRemoteLock true sweepFault fault self now lockName st).1 = true := by
  rcases h with h | ⟨hf, hs⟩ | ⟨hf, rec, hl, hsid⟩
  · subst h; simp [acquireRemoteLock]
  · subst hf
    rw [Option.isSome_iff_exists] at hs
    obtain ⟨rec, hrec⟩ := hs
    simp [acquireRemoteLock, hrec]
  · subst hf
    simp [acquireRemoteLock, hl, hsid]

/-- Witness for C2: the insert throws on an empty store and the call still
reports granted. -/
theorem acquire_fail_open_on_transport_error_witness :
    throwReached AcquireFault.insertThrow
      (cleanupExpiredLocks false 0 emptyLockState.store) "me" "L" ∧
    (acquireRemoteLock true false AcquireFault.insertThrow "me" 0 "L"
      emptyLockState).1 = true :=
  ⟨Or.inl rfl,
    acquire_fail_open_on_transport_error false AcquireFault.insertThrow "me" 0 "L"
      emptyLockState (Or.inl rfl)⟩

/-- C3 (divergence witness): with the remote record for a heartbeat-set name
held by another session, a heartbeat tick leaves the state exactly
unchanged: the conditional update matches zero rows without raising,
refreshLockExpiration swallows every failure, so no re-acquire is attempted
and the name is NOT removed from the heartbeat set; a subsequent validate of
the path does report it invalid. -/
theorem heartbeat_keeps_lost_lock_in_heartbeat_set :
    heartbeatTick true (fun _ => false) "session-me" 500 lostLockState = lostLockState ∧
    "file-editing:/a.py" ∈ (heartbeatTick true (fun _ => false) "session-me" 500
        lostLockState).activeLocks ∧
    (EditingSessions.validateEditingSession false true false false "session-me" 500 "/a.py"
        lostLockState [("/a.py", "edit-1")]).1 = false := by
  refine ⟨?_, ?_, ?_⟩ <;> decide

/-- C4: releasing a name whose record is owned by another holder leaves the
store unchanged, and the (source-successful) release still removes the name
from the heartbeat set. -/
theorem release_preserves_other_holder_record_and_clears_heartbeat
    (self lockName : String) (st : LockState) (rec : LockRecord)
    (hkeys : (st.store.map Prod.fst).Nodup)
    (hlook : lookupLock st.store lockName = some rec)
    (hother : rec.session_id ≠ self) :
    (releaseRemoteLock true ReleaseOutcome.ok self lockName st).store = st.store ∧
    lockName ∉ (releaseRemoteLock true ReleaseOutcome.ok self lockName st).activeLocks := by
  constructor
  · show deleteLockBy st.store lockName self = st.store
    unfold deleteLockBy
    rw [List.filter_eq_self]
    intro e he
    by_cases hk : (e.1 == lockName) = true
    · have hxe : e = (lockName, rec) :=
        eq_of_mem_keyNodup hkeys he (lookupLock_mem hlook) (by simpa using hk)
      rw [hxe]
      simp [hother]
    · simp [hk]
  · show lockName ∉ removeActiveLock st.activeLocks lockName
    unfold removeActiveLock
    simp [List.mem_filter]

/-- Witness for C4: releasing L, owned remotely by session-other, leaves
the store intact and clears L from our heartbeat set. -/
theorem release_preserves_other_holder_record_and_clears_heartbeat_witness :
    ((foreignHeldState.store.map Prod.fst).Nodup ∧
      lookupLock foreignHeldState.store "L"
        = some { session_id := "session-other", expires_at := 99 } ∧
      ("session-other" : String) ≠ "me") ∧
    ((releaseRemoteLock true ReleaseOutcome.ok "me" "L" foreignHeldState).store
        = foreignHeldState.store ∧
      "L" ∉ (releaseRemoteLock true ReleaseOutcome.ok "me" "L"
        foreignHeldState).activeLocks) :=
  ⟨⟨by decide, by decide, by decide⟩,
    release_preserves_other_holder_record_and_clears_heartbeat "me" "L" foreignHeldState
      { session_id := "session-other", expires_at := 99 }
      (by decide) (by decide) (by decide)⟩

/-- C5: when the surviving remote record for a name is owned by this
process, re-acquiring returns granted and the record's expiry is extended
to 30 seconds after now. -/
theorem acquire_idempotent_for_current_holder
    (self lockName : String) (now : Nat) (st : LockState) (rec : LockRecord)
    (h : lookupLock (cleanupExpiredLocks false now st.store) lockName = some rec)
    (hown : rec.session_id = self) :
    (acquireRemoteLock true false AcquireFault.none self now lockName st).1 = true ∧
    lookupLock (acquireRemoteLock true false AcquireFault.none self now lockName st).2.store
      lockName = some { session_id := self, expires_at := now + 30000 } := by
  have hself : (rec.session_id == self) = true := by simp [hown]
  have hres : acquireRemoteLock true false AcquireFault.none self now lockName st
      = (true, { st with
          store :=
            updateLockExpiry (cleanupExpiredLocks false now st.store) lockName self
              (now + 30000) }) := by
    simp [acquireRemoteLock, h, hself]
  rw [hres]
  exact ⟨rfl, lookupLock_updateLockExpiry h hown⟩

/-- Witness for C5: re-acquiring our own live lock on L at time 1000
succeeds and moves the expiry to 31000. -/
theorem acquire_idempotent_for_current_holder_witness :
    (lookupLock (cleanupExpiredLocks false 1000 selfHeldState.store) "L"
        = some { session_id := "me", expires_at := 50000 } ∧
      ({ session_id := "me", expires_at := 50000 } : LockRecord).session_id = "me") ∧
    ((acquireRemoteLock true false AcquireFault.none "me" 1000 "L" selfHeldState).1 = true ∧
      lookupLock (acquireRemoteLock true false AcquireFault.none "me" 1000 "L"
          selfHeldState).2.store "L"
        = some { session_id := "me", expires_at := 1000 + 30000 }) :=
  ⟨⟨by decide, by decide⟩,
    acquire_idempotent_for_current_holder "me" "L" 1000 selfHeldState
      { session_id := "me", expires_at := 50000 } (by decide) (by decide)⟩

/-- C9: every granted outcome of acquireRemoteLock other than a fresh
successful insert (unconfigured client, an actually thrown transport error,
or the own-lock re-acquire branch) leaves the heartbeat set unchanged. -/
theorem nonfresh_grant_leaves_heartbeat_set_unchanged
    (configured sweepFault : Bool) (fault : AcquireFault) (self : String) (now : Nat)
    (lockName : String) (st : LockState)
    (h : configured = false ∨
         throwReached fault (cleanupExpiredLocks sweepFault now st.store) self lockName ∨
         (fault = AcquireFault.none ∧ ∃ rec,
            lookupLock (cleanupExpiredLocks sweepFault now st.store) lockName = some rec ∧
            rec.session_id = self)) :
    (acquireRemoteLock configured sweepFault fault self now lockName st).1 = true ∧
    (acquireRemoteLock configured sweepFault fault self now lockName st).2.activeLocks
      = st.activeLocks := by
  rcases h with h | h | ⟨hf, rec, hl, hsid⟩
  · subst h; simp [acquireRemoteLock]
  · rcases h with h | ⟨hf, hs⟩ | ⟨hf, rec, hl, hsid⟩
    · subst h; cases configured <;> simp [acquireRemoteLock]
    · subst hf
      rw [Option.isSome_iff_exists] at hs
      obtain ⟨rec, hrec⟩ := hs
      cases configured <;> simp [acquireRemoteLock, hrec]
    · subst hf; cases configured <;> simp [acquireRemoteLock, hl, hsid]
  · subst hf; cases configured <;> simp [acquireRemoteLock, hl, hsid]

/-- Witness for C9: an unconfigured-client grant leaves the heartbeat set
(holding K) unchanged. -/
theorem nonfresh_grant_leaves_heartbeat_set_unchanged_witness :
    ((false : Bool) = false ∨
      throwReached AcquireFault.none
        (cleanupExpiredLocks false 0 idleHeartbeatState.store) "me" "L" ∨
      (AcquireFault.none = AcquireFault.none ∧ ∃ rec,
        lookupLock (cleanupExpiredLocks false 0 idleHeartbeatState.store) "L" = some rec ∧
        rec.session_id = "me")) ∧
    ((acquireRemoteLock false false AcquireFault.none "me" 0 "L"
        idleHeartbeatState).1 = true ∧
      (acquireRemoteLock false false AcquireFault.none "me" 0 "L"
        idleHeartbeatState).2.activeLocks = idleHeartbeatState.activeLocks) :=
  ⟨Or.inl rfl,
    nonfresh_grant_leaves_heartbeat_set_unchanged false false AcquireFault.none "me" 0 "L"
      idleHeartbeatState (Or.inl rfl)⟩

end RemoteLocks

namespace EditingSessions

open RemoteLocks

/-- C10: validateEditingSession evicts the path's registry entry only when
the lock is observed held by a different session (reporting invalid); a
thrown error during validation reports invalid while leaving the registry
entry in place; an unlocked observation reports valid and changes nothing. -/
theorem validate_evicts_only_on_observed_foreign_lock
    (configured sweepFault selectFault : Bool) (self : String) (now : Nat)
    (filePath : String) (locks : LockState) (sessions : Sessions) :
    validateEditingSession true configured sweepFault selectFault self now filePath locks
        sessions = (false, locks, sessions) ∧
    ((isFileLockedByOther configured sweepFault selectFault self now (lockNameFor filePath)
        locks).1.1 = true →
      validateEditingSession false configured sweepFault selectFault self now filePath locks
          sessions
        = (false, (isFileLockedByOther configured sweepFault selectFault self now
            (lockNameFor filePath) locks).2, removeSession sessions filePath)) ∧
    ((isFileLockedByOther configured sweepFault selectFault self now (lockNameFor filePath)
        locks).1.1 = false →
      validateEditingSession false configured sweepFault selectFault self now filePath locks
          sessions
        = (true, (isFileLockedByOther configured sweepFault selectFault self now
            (lockNameFor filePath) locks).2, sessions)) := by
  refine ⟨by simp [validateEditingSession], ?_, ?_⟩ <;> intro h <;>
    simp [validateEditingSession, h]

/-- Witness for C10: with /w.py's editing lock held by session-other,
validation reports invalid and evicts the registry entry. -/
theorem validate_evicts_only_on_observed_foreign_lock_witness :
    (isFileLockedByOther true false false "session-me" 5 (lockNameFor "/w.py")
        foreignEditLockState).1.1 = true ∧
    validateEditingSession false true false false "session-me" 5 "/w.py"
        foreignEditLockState [("/w.py", "e1")]
      = (false, (isFileLockedByOther true false false "session-me" 5 (lockNameFor "/w.py")
          foreignEditLockState).2, removeSession [("/w.py", "e1")] "/w.py") :=
  ⟨by decide,
    (validate_evicts_only_on_observed_foreign_lock true false false "session-me" 5 "/w.py"
      foreignEditLockState [("/w.py", "e1")]).2.1 (by decide)⟩

end EditingSessions

namespace SupabaseSync

/-- A metadata point read by path, after the update-by-uuid that mergeFile
performs on the found record, returns that record with the remote digest
and view state. -/
theorem find?_updateMetadataByUuid {ms : List FileMetadata} {p : String} {m : FileMetadata}
    (h : ms.find? (fun x => x.path == p) = some m) (s : String) (v : Option String) :
    (updateMetadataByUuid ms m.uuid s v).find? (fun x => x.path == p)
      = some { m with sha256 := s, viewState := v } := by
  unfold updateMetadataByUuid
  rw [List.find?_map]
  have hcong : ((fun x : FileMetadata => x.path == p) ∘ fun x =>
      if x.uuid == m.uuid then { x with sha256 := s, viewState := v } else x)
      = fun x : FileMetadata => x.path == p := by
    funext x
    by_cases hc : (x.uuid == m.uuid) = true
    · simp [Function.comp, hc]
    · simp [Function.comp, hc]
  rw [hcong, h]
  simp

/-- A contents point read after put returns the text just put. -/
theorem lookupContents_putContents (cs : List FileContents) (path text : String) :
    lookupContents (putContents cs path text) path = some text := by
  unfold putContents
  cases hany : cs.any (fun c => c.path == path) with
  | true =>
      rw [if_pos rfl]
      unfold lookupContents
      rw [List.find?_map]
      have hcong : ((fun c : FileContents => c.path == path) ∘ fun c =>
          if c.path == path then { path := path, contents := text } else c)
          = fun c : FileContents => c.path == path := by
        funext c
        by_cases hc : (c.path == path) = true
        · simp [Function.comp, hc]
        · simp [Function.comp, hc]
      rw [hcong]
      have hsome : (cs.find? (fun c => c.path == path)).isSome = true := by
        rw [List.find?_isSome]
        obtain ⟨c, hcmem, hcp⟩ := List.any_eq_true.mp hany
        exact ⟨c, hcmem, hcp⟩
      obtain ⟨c0, hc0⟩ := Option.isSome_iff_exists.mp hsome
      rw [hc0]
      have hp0' := List.find?_some hc0
      have hp0n : c0.path = path := by simpa using hp0'
      simp [hp0n]
  | false =>
      rw [if_neg (by simp)]
      unfold lookupContents
      rw [List.find?_append]
      have hnone : cs.find? (fun c => c.path == path) = none := by
        rw [List.find?_eq_none]
        intro x hx hpx
        have hcontra : cs.any (fun c => c.path == path) = true :=
          List.any_eq_true.mpr ⟨x, hx, hpx⟩
        rw [hany] at hcontra
        exact Bool.false_ne_true hcontra
      rw [hnone]
      simp [List.find?]

/-- C6: when local metadata exists for the remote row's path with a digest
different from the remote one, the merge overwrites the local metadata and
contents with the remote values, and the outcome is identical for every
value of the row's updated_at timestamp. -/
theorem mergeFile_remote_wins_on_digest_mismatch
    (u : String) (row : SyncedFile) (db : LocalDb) (m : FileMetadata)
    (hfind : findMetadata db row.path = some m)
    (hdiff : m.sha256 ≠ row.sha256) :
    findMetadata (mergeFile false u row db) row.path
      = some { m with sha256 := row.sha256, viewState := row.view_state } ∧
    lookupContents (mergeFile false u row db).contents row.path = some row.contents ∧
    ∀ t, mergeFile false u { row with updated_at := t } db = mergeFile false u row db := by
  have hres : mergeFile false u row db
      = { metadata := updateMetadataByUuid db.metadata m.uuid row.sha256 row.view_state,
          contents := putContents db.contents row.path row.contents } := by
    simp [mergeFile, hfind, hdiff]
  have hfind' : db.metadata.find? (fun x => x.path == row.path) = some m := hfind
  refine ⟨?_, ?_, fun t => rfl⟩
  · rw [hres]
    exact find?_updateMetadataByUuid hfind' row.sha256 row.view_state
  · rw [hres]
    exact lookupContents_putContents db.contents row.path row.contents

/-- Witness for C6: a remote row for x.py with digest D1 and an updated_at
of 50 overwrites the stale local copy with digest D0; the same merge result
obtains if the remote timestamp is changed to 7. -/
theorem mergeFile_remote_wins_on_digest_mismatch_witness :
    (findMetadata staleDb rowX.path = some staleMeta ∧ staleMeta.sha256 ≠ rowX.sha256) ∧
    (findMetadata (mergeFile false "u1" rowX staleDb) rowX.path
        = some { staleMeta with sha256 := rowX.sha256, viewState := rowX.view_state } ∧
      lookupContents (mergeFile false "u1" rowX staleDb).contents rowX.path
        = some rowX.contents ∧
      mergeFile false "u1" { rowX with updated_at := 7 } staleDb
        = mergeFile false "u1" rowX staleDb) :=
  ⟨⟨by decide, by decide⟩,
    (mergeFile_remote_wins_on_digest_mismatch "u1" rowX staleDb staleMeta
      (by decide) (by decide)).1,
    (mergeFile_remote_wins_on_digest_mismatch "u1" rowX staleDb staleMeta
      (by decide) (by decide)).2.1,
    (mergeFile_remote_wins_on_digest_mismatch "u1" rowX staleDb staleMeta
      (by decide) (by decide)).2.2 7⟩

/-- C7: when local metadata exists for the remote row's path and its digest
equals the remote digest, the merge performs no local mutation at all. -/
theorem mergeFile_noop_on_equal_digest
    (u : String) (row : SyncedFile) (db : LocalDb) (m : FileMetadata)
    (hfind : findMetadata db row.path = some m)
    (heq : m.sha256 = row.sha256) :
    mergeFile false u row db = db := by
  simp [mergeFile, hfind, heq]

/-- Witness for C7: merging rowY into a database already holding its digest
changes nothing. -/
theorem mergeFile_noop_on_equal_digest_witness :
    (findMetadata freshDb rowY.path = some freshMeta ∧ freshMeta.sha256 = rowY.sha256) ∧
    mergeFile false "u3" rowY freshDb = freshDb :=
  ⟨⟨by decide, by decide⟩,
    mergeFile_noop_on_equal_digest "u3" rowY freshDb freshMeta (by decide) (by decide)⟩

/-- C8 counterexample: a pull whose only returned row's merge transaction
fails still advances lastSyncTime (from 0 to the completion time 100) while
leaving the local database untouched, contradicting the claim that a
transaction failure keeps lastSyncTime from advancing. -/
theorem downloadAndMerge_advances_watermark_despite_merge_failure :
    (downloadAndMergeFiles false (fun _ => true) (fun _ => "u1") [rowX] 100
        epochSyncState).db = epochSyncState.db ∧
    (downloadAndMergeFiles false (fun _ => true) (fun _ => "u1") [rowX] 100
        epochSyncState).lastSyncTime = 100 ∧
    ¬ (downloadAndMergeFiles false (fun _ => true) (fun _ => "u1") [rowX] 100
        epochSyncState).lastSyncTime = epochSyncState.lastSyncTime := by
  refine ⟨?_, ?_, ?_⟩ <;> decide

/-- C8 as amended: a failed remote query leaves the whole sync state (and so
lastSyncTime) unchanged, so those rows are retried next tick; but when the
query succeeds and returns rows, lastSyncTime advances to the completion
time regardless of per-row merge-transaction failures, each failed
transaction merely leaving that row's local records unchanged. -/
theorem downloadAndMerge_watermark_policy
    (txFault : SyncedFile → Bool) (freshUuid : SyncedFile → String)
    (remote : List SyncedFile) (completionTime : Nat) (st : SyncState) :
    downloadAndMergeFiles true txFault freshUuid remote completionTime st = st ∧
    (queryRows remote st.lastSyncTime ≠ [] →
      (downloadAndMergeFiles false txFault freshUuid remote completionTime st).lastSyncTime
        = completionTime) ∧
    (∀ u r d, mergeFile true u r d = d) := by
  refine ⟨by simp [downloadAndMergeFiles], ?_, fun u r d => by simp [mergeFile]⟩
  intro hne
  simp [downloadAndMergeFiles, hne]

/-- Witness for C8's amended theorem: with one fresh row and no faults, the
pull advances the watermark to the completion time 77. -/
theorem downloadAndMerge_watermark_policy_witness :
    queryRows [rowX] epochSyncState.lastSyncTime ≠ [] ∧
    (downloadAndMergeFiles false (fun _ => false) (fun _ => "u1") [rowX] 77
        epochSyncState).lastSyncTime = 77 :=
  ⟨by decide,
    (downloadAndMerge_watermark_policy (fun _ => false) (fun _ => "u1") [rowX] 77
      epochSyncState).2.1 (by decide)⟩

end SupabaseSync
